import Mathlib

/-!
Verification of the asynchronous operation orchestration engine of lxtui.

The definitions below are a shallow embedding of the relevant parts of the
source files `src/app.rs`, `src/main.rs`, `src/lxc.rs` and `src/lxd_api.rs`:

* time (`tokio::time::Instant`) is modelled as a `Nat` millisecond clock,
  passed explicitly (`now`) to every operation that reads the clock;
* `HashMap<String, LxdOperationTracker>` is modelled as an association list
  with pairwise-distinct keys (keys are locally generated UUID strings);
  iteration order of the map is abstracted as the list order;
* asynchronous I/O (requests to the LXD daemon) is modelled by passing the
  daemon's response for each request as an explicit parameter, with
  `Except String _` for fallible calls (`.error` = the stringified error);
* locally generated UUIDs (`Uuid::new_v4().to_string()`) are passed in as
  explicit `String` parameters;
* fields of `App` that no claim mentions (rendering state, image catalog,
  channels, selection indices) are elided from the state record; the fields
  the operations under scrutiny touch are all present.
-/

set_option autoImplicit false

namespace LxTui

/-- Remote job snapshot (`LxdOperation` in src/lxd_api.rs, restricted to the
fields the poll loop in `App::poll_lxd_operations` reads): the numeric status
code, the daemon error string (`err`, empty by default), and the parsed
progress metadata. `progress` stands for
`metadata.get("progress").and_then(|p| p.as_i64())`: `none` when the metadata
is absent or carries no integer progress field. -/
structure LxdOp where
  status_code : Int
  err : String
  progress : Option Int
  deriving DecidableEq

/-- `OperationStatus` from src/app.rs. -/
inductive OperationStatus where
  | Registered
  | Running
  | Retrying (n : Nat)
  | Success
  | Failed (msg : String)
  | Cancelled
  deriving DecidableEq

/-- `UserOperation` from src/app.rs: the local operation record
(the OperationRecord of the spec). Timestamps are `Option Nat` for
`Option<Instant>`. -/
structure UserOperation where
  id : String
  description : String
  container : Option String
  status : OperationStatus
  started_at : Option Nat
  completed_at : Option Nat
  retry_count : Nat
  deriving DecidableEq

/-- `LxdOperationTracker` from src/app.rs: the correlation entry binding a UI
operation id to an LXD operation path (the TrackedRemoteOperation of the
spec). -/
structure LxdOperationTracker where
  ui_operation_id : String
  lxd_operation_path : String
  description : String
  container_name : String
  action : String
  started_at : Nat
  last_checked : Nat
  status_code : Int
  progress : Option Int
  deriving DecidableEq

/-- `ConfirmAction` from src/app.rs. -/
inductive ConfirmAction where
  | StartContainer (name : String)
  | StopContainer (name : String)
  | RestartContainer (name : String)
  | DeleteContainer (name : String)
  deriving DecidableEq

/-- `StatusModalType` from src/app.rs (the Success variant's
`started_at : Instant` becomes a `Nat`). -/
inductive StatusModalType where
  | Info (message : String) (auto_close : Bool)
  | Progress (operation_id : String)
  | Error (title details : String) (suggestions : List String)
  | Success (message : String) (started_at : Nat)
  deriving DecidableEq

/-- The slice of `App` (src/app.rs) that the operation engine reads and
writes. `modal` is `some m` when `input_mode` is `InputMode::StatusModal m`.
`refresh_requests` counts the calls to `App::refresh_containers` (the
"instance list is stale, refresh it" signal); the fetched list itself is
external input and is not part of this state. -/
structure AppState where
  user_operations : List UserOperation
  active_operation_count : Nat
  command_feedback : Option String
  message : Option String
  lxd_operations : List (String × LxdOperationTracker)
  modal : Option StatusModalType
  pending_action : Option ConfirmAction
  refresh_requests : Nat
  deriving DecidableEq

/-- The engine-relevant slice of `App::new()`. -/
def initialApp : AppState :=
  { user_operations := []
    active_operation_count := 0
    command_feedback := none
    message := none
    lxd_operations := []
    modal := none
    pending_action := none
    refresh_requests := 0 }

/-! ### Association-list operations standing for the `HashMap` primitives -/

/-- `HashMap::get` on the tracker map. -/
def lookupA (k : String) : List (String × LxdOperationTracker) → Option LxdOperationTracker
  | [] => none
  | e :: rest => if e.1 = k then some e.2 else lookupA k rest

/-- `HashMap::get_mut` followed by an in-place mutation `f` of the entry. -/
def updateA (k : String) (f : LxdOperationTracker → LxdOperationTracker) :
    List (String × LxdOperationTracker) → List (String × LxdOperationTracker)
  | [] => []
  | e :: rest => if e.1 = k then (e.1, f e.2) :: rest else e :: updateA k f rest

/-- `HashMap::remove`. -/
def removeA (k : String) :
    List (String × LxdOperationTracker) → List (String × LxdOperationTracker)
  | [] => []
  | e :: rest => if e.1 = k then rest else e :: removeA k rest

/-- `HashMap::insert` (replaces the entry if the key is present). -/
def insertA (k : String) (v : LxdOperationTracker) :
    List (String × LxdOperationTracker) → List (String × LxdOperationTracker)
  | [] => [(k, v)]
  | e :: rest => if e.1 = k then (e.1, v) :: rest else e :: insertA k v rest

/-- `self.user_operations.iter_mut().find(|o| o.id == id).map(|op| mutate)`:
mutate the first matching element in place, leave the rest unchanged. -/
def updateFirst (p : UserOperation → Bool) (f : UserOperation → UserOperation) :
    List UserOperation → List UserOperation
  | [] => []
  | o :: rest => if p o then f o :: rest else o :: updateFirst p f rest

/-- The first operation record with the given id
(`self.user_operations.iter().find(|o| o.id == operation_id)`). -/
def recOf (st : AppState) (id : String) : Option UserOperation :=
  st.user_operations.find? (fun o => o.id == id)

/-! ### App methods (src/app.rs) -/

/-- The record `App::register_operation` creates before pushing it. -/
def newUserOp (id description : String) (container : Option String) : UserOperation :=
  { id := id
    description := description
    container := container
    status := .Registered
    started_at := none
    completed_at := none
    retry_count := 0 }

/-- `App::register_operation` (src/app.rs lines 761-783). The freshly
generated UUID is passed in as `newId`. Pushes a `Registered` record, sets
the feedback line, bumps the active count, then truncates the history to the
last 10 records (`if len > 10 { remove(0) }`). -/
def register_operation (st : AppState) (newId description : String)
    (container : Option String) : AppState :=
  let ops := st.user_operations ++ [newUserOp newId description container]
  { st with
    user_operations := if ops.length > 10 then ops.drop 1 else ops
    command_feedback := some ("Command registered: " ++ description)
    active_operation_count := st.active_operation_count + 1 }

/-- `App::start_operation` (src/app.rs lines 785-795). -/
def start_operation (st : AppState) (operation_id : String) (now : Nat) : AppState :=
  match st.user_operations.find? (fun o => o.id == operation_id) with
  | none => st
  | some op =>
    { st with
      user_operations := updateFirst (fun o => o.id == operation_id)
        (fun o => { o with status := .Running, started_at := some now })
        st.user_operations
      command_feedback := some ("Starting: " ++ op.description) }

/-- The duration suffix `format!(" ({}s)", started.elapsed().as_secs())` of
`App::complete_operation`, on the millisecond clock. -/
def durationSuffix (op : UserOperation) (now : Nat) : String :=
  match op.started_at with
  | some s => " (" ++ toString ((now - s) / 1000) ++ "s)"
  | none => ""

/-- `App::complete_operation` (src/app.rs lines 813-851): if a record with
the id exists, set its status to `Success` or `Failed(error_msg)` and its
completion time, decrement the active count (guarded against underflow), set
the feedback line, and on failure copy the error message into `message`. -/
def complete_operation (st : AppState) (operation_id : String) (success : Bool)
    (error_msg : Option String) (now : Nat) : AppState :=
  match st.user_operations.find? (fun o => o.id == operation_id) with
  | none => st
  | some op =>
    let newStatus := if success then OperationStatus.Success
      else OperationStatus.Failed (error_msg.getD "")
    { st with
      user_operations := updateFirst (fun o => o.id == operation_id)
        (fun o => { o with status := newStatus, completed_at := some now })
        st.user_operations
      active_operation_count :=
        if st.active_operation_count > 0 then st.active_operation_count - 1
        else st.active_operation_count
      command_feedback :=
        if success then some ("Completed: " ++ op.description ++ durationSuffix op now)
        else some ("Failed: " ++ op.description ++ durationSuffix op now)
      message :=
        if success then st.message
        else match error_msg with
          | some msg => some ("Error: " ++ msg)
          | none => st.message }

/-- `App::cancel_operation` (src/app.rs lines 853-868): if a record with the
id exists, set its status to `Cancelled`, set its completion time, decrement
the active count and set the feedback line. The tracker map
`lxd_operations` is not touched. -/
def cancel_operation (st : AppState) (operation_id : String) (now : Nat) : AppState :=
  match st.user_operations.find? (fun o => o.id == operation_id) with
  | none => st
  | some op =>
    { st with
      user_operations := updateFirst (fun o => o.id == operation_id)
        (fun o => { o with status := .Cancelled, completed_at := some now })
        st.user_operations
      active_operation_count :=
        if st.active_operation_count > 0 then st.active_operation_count - 1
        else st.active_operation_count
      command_feedback := some ("Cancelled: " ++ op.description) }

/-! ### The poll tick (`App::poll_lxd_operations`, src/app.rs lines 902-1034)

The daemon is modelled by `poll : String → Except String LxdOp`, giving for
each LXD operation path either the fetched snapshot or a transport/protocol
error (`LxcClient::get_lxd_operation`). One invocation of the tick reads the
clock once (`now`). -/

/-- `tracker.last_checked.elapsed() > Duration::from_millis(500)`. -/
def isDue (now : Nat) (t : LxdOperationTracker) : Bool :=
  500 < now - t.last_checked

/-- First pass of the tick: stamp `last_checked = now` on every due tracker. -/
def touchDue (now : Nat) (m : List (String × LxdOperationTracker)) :
    List (String × LxdOperationTracker) :=
  m.map (fun e => if isDue now e.2 then (e.1, { e.2 with last_checked := now }) else e)

/-- First pass of the tick: the `(ui_op_id, lxd_op_path)` pairs collected into
`operations_to_check`. -/
def operations_to_check (now : Nat) (m : List (String × LxdOperationTracker)) :
    List (String × String) :=
  (m.filter (fun e => isDue now e.2)).map (fun e => (e.1, e.2.lxd_operation_path))

/-- The past-tense verb of the success message in the 200 arm. -/
def actionDoneWord (action : String) : String :=
  match action with
  | "start" => "started"
  | "stop" => "stopped"
  | "restart" => "restarted"
  | "delete" => "deleted"
  | _ => "operation completed"

/-- The error-modal title of the 400/401 arm. -/
def failTitle (action container_name : String) : String :=
  match action with
  | "start" => "Failed to start '" ++ container_name ++ "'"
  | "stop" => "Failed to stop '" ++ container_name ++ "'"
  | "restart" => "Failed to restart '" ++ container_name ++ "'"
  | "delete" => "Failed to delete '" ++ container_name ++ "'"
  | _ => "Operation failed for '" ++ container_name ++ "'"

/-- The error-modal suggestion list of the 400/401 arm. -/
def failSuggestions (action : String) : List String :=
  match action with
  | "start" => ["Check if the container exists", "Verify LXD service is running",
      "Check container logs with 'lxc info'"]
  | "stop" => ["Try force stopping with 'lxc stop -f'",
      "Check if processes are hung inside container"]
  | "restart" => ["Check container status first", "Try stopping then starting manually"]
  | "delete" => ["Stop the container first if it's running", "Check for dependent snapshots"]
  | _ => ["Check LXD logs for details"]

/-- The tracker bookkeeping update the second pass applies after fetching a
snapshot (src/app.rs lines 920-932): store the status code and, when
progress metadata is present, the progress. -/
def trackerAfterPoll (j : LxdOp) (t : LxdOperationTracker) : LxdOperationTracker :=
  let t1 := { t with status_code := j.status_code }
  match j.progress with
  | some p => { t1 with progress := some p }
  | none => t1

/-- `if let Some(info) = tracker_info { self.show_status_modal(...) }`:
set the status modal when the optional payload is present. -/
def withModal (st : AppState) (m : Option StatusModalType) : AppState :=
  match m with
  | some x => { st with modal := some x }
  | none => st

/-- The body of the second-pass loop of `App::poll_lxd_operations` for one
`(ui_op_id, lxd_op_path)` entry, threading the app state and the
`completed_ops` list. On a poll error nothing changes (retry next tick); on
a fetched snapshot the tracker bookkeeping is updated, then the status code
is classified: 200 completes with success and requests a container-list
refresh, 400 and 401 complete with failure carrying `lxd_op.err`, the
running range 103..=109 and any unknown code only log. -/
def processOne (poll : String → Except String LxdOp) (now : Nat)
    (acc : AppState × List String) (item : String × String) : AppState × List String :=
  match poll item.2 with
  | .error _ => acc
  | .ok lxd_op =>
    let st := { acc.1 with
      lxd_operations := updateA item.1 (trackerAfterPoll lxd_op) acc.1.lxd_operations }
    let tracker_info := (lookupA item.1 st.lxd_operations).map
      (fun t => (t.container_name, t.action))
    if lxd_op.status_code = 200 then
      let st := complete_operation st item.1 true none now
      let st := withModal st (tracker_info.map (fun info => .Success
        ("Container '" ++ info.1 ++ "' " ++ actionDoneWord info.2 ++ " successfully") now))
      let st := { st with refresh_requests := st.refresh_requests + 1 }
      (st, acc.2 ++ [item.1])
    else if lxd_op.status_code = 400 ∨ lxd_op.status_code = 401 then
      let st := complete_operation st item.1 false (some lxd_op.err) now
      let st := withModal st (tracker_info.map (fun info => .Error
        (failTitle info.2 info.1) lxd_op.err (failSuggestions info.2)))
      (st, acc.2 ++ [item.1])
    else
      (st, acc.2)

/-- `App::poll_lxd_operations` (src/app.rs lines 902-1034): stamp and collect
the due trackers, process each collected entry, then remove the completed
trackers from the map. -/
def poll_lxd_operations (poll : String → Except String LxdOp) (now : Nat)
    (st : AppState) : AppState :=
  let toCheck := operations_to_check now st.lxd_operations
  let st1 := { st with lxd_operations := touchDue now st.lxd_operations }
  let res := toCheck.foldl (processOne poll now) (st1, [])
  { res.1 with
    lxd_operations := res.2.foldl (fun m k => removeA k m) res.1.lxd_operations }

/-! ### The submit path (`handle_confirmation`, src/main.rs lines 453-546) -/

/-- The `(operation_desc, container_name, action_str)` triple computed at the
top of `handle_confirmation` for the confirmed action. -/
def confirmDesc : ConfirmAction → String × String × String
  | .StartContainer name => ("Start container '" ++ name ++ "'", name, "start")
  | .StopContainer name => ("Stop container '" ++ name ++ "'", name, "stop")
  | .RestartContainer name => ("Restart container '" ++ name ++ "'", name, "restart")
  | .DeleteContainer name => ("Delete container '" ++ name ++ "'", name, "delete")

/-- The tracker `handle_confirmation` builds for a successful submission
(`status_code: 103 // Running`). -/
def newTracker (ui_operation_id lxd_operation_path description container_name
    action : String) (now : Nat) : LxdOperationTracker :=
  { ui_operation_id := ui_operation_id
    lxd_operation_path := lxd_operation_path
    description := description
    container_name := container_name
    action := action
    started_at := now
    last_checked := now
    status_code := 103
    progress := none }

/-- The Enter/`y` branch of `handle_confirmation` (src/main.rs lines
455-539): register the record, show the progress modal, clear the pending
action, mark the record started, issue the non-blocking mutation, and then
either insert a tracker for the returned LXD operation path or complete the
record as failed and show the error modal. The daemon's answer to the
submission is passed in as `submit` (`Ok(lxd_operation_path)` or the
submission error). -/
def handle_confirmation_yes (st : AppState) (action : ConfirmAction)
    (newId : String) (now : Nat) (submit : Except String String) : AppState :=
  let desc := (confirmDesc action).1
  let cname := (confirmDesc action).2.1
  let astr := (confirmDesc action).2.2
  let st := register_operation st newId desc (some cname)
  let st := { st with modal := some (.Progress newId), pending_action := none }
  let st := start_operation st newId now
  match submit with
  | .ok lxd_operation_path =>
    { st with lxd_operations :=
        (insertA newId (newTracker newId lxd_operation_path desc cname astr now)
          st.lxd_operations) }
  | .error e =>
    let st := complete_operation st newId false (some e) now
    { st with modal := some (.Error ("Failed to " ++ astr ++ " '" ++ cname ++ "'") e
        ["Check if LXD is running"]) }

/-! ### The protocol client's async envelope handling (src/lxd_api.rs)

`request_raw` only transmits the request and deserializes the envelope — it
performs no status-code check (unlike `request`, which rejects
`status_code >= 400` and insists on `metadata`). The `*_container_async`
methods then demand the `operation` field. -/

/-- `LxdApiError` from src/lxd_api.rs (the variants reachable from the
envelope handling; transport and JSON failures carry their message). -/
inductive LxdApiError where
  | HttpError (msg : String)
  | JsonError (msg : String)
  | ApiError (msg : String)
  | OperationFailed (msg : String)
  | Timeout (msg : String)
  deriving DecidableEq

/-- The decoded response envelope `LxdResponse<serde_json::Value>`
(src/lxd_api.rs lines 36-50). `metadata` keeps only presence and the raw
text of the value, which is all the code under scrutiny inspects. -/
structure LxdResponseRaw where
  response_type : String
  status : String
  status_code : Int
  metadata : Option String
  operation : Option String
  error : Option String
  error_code : Option Int
  deriving DecidableEq

/-- `LxdApiClient::request_raw` (src/lxd_api.rs lines 361-388): the transport
and deserialization outcome is passed in; the decoded envelope is returned
as is, with no inspection of its fields. -/
def request_raw (transport : Except LxdApiError LxdResponseRaw) :
    Except LxdApiError LxdResponseRaw :=
  transport

/-- `LxdApiClient::request` (src/lxd_api.rs lines 166-207), with the decoded
envelope's `metadata` as the caller's payload: rejects
`status_code >= 400` with `ApiError` carrying the envelope's error string
(defaulting to "Unknown error"), then demands `metadata`. This is the
synchronous `invoke` of the spec, given here for contrast with the async
path. -/
def request_decoded (transport : Except LxdApiError LxdResponseRaw) :
    Except LxdApiError String :=
  match transport with
  | .error e => .error e
  | .ok r =>
    if r.status_code ≥ 400 then
      .error (.ApiError (r.error.getD "Unknown error"))
    else
      match r.metadata with
      | some m => .ok m
      | none => .error (.ApiError "No metadata in response")

/-- The shared tail of the four `*_container_async` methods
(src/lxd_api.rs lines 449-503): return the envelope's `operation` field, or
`ApiError("No operation returned")` when it is absent — with no
status-code check and no use of the envelope's `error` field. -/
def async_operation_of (resp : Except LxdApiError LxdResponseRaw) :
    Except LxdApiError String :=
  match request_raw resp with
  | .error e => .error e
  | .ok r =>
    match r.operation with
    | some op => .ok op
    | none => .error (.ApiError "No operation returned")

/-! ### LxcClient lock discipline (src/lxc.rs)

`LxcClient` holds two `tokio::sync::Mutex`es: `operation_lock : Mutex<()>`
(the advisory lock around the lifecycle mutations — the MutationSerializer
of the spec) and the mutex guarding `api_client : Mutex<LxdApiClient>`
through which every daemon request goes. Each client method is embedded as
the sequence of lock and request events it performs, in program order. -/

/-- The two mutexes of `LxcClient`. -/
inductive LockId where
  | operation_lock
  | api_client
  deriving DecidableEq

/-- Lock and daemon-request events. `submitReq` is a lifecycle-mutating
request (the `PUT .../state`, `DELETE`, `POST` calls); `stateQuery` is the
non-mutating `GET /1.0/instances/{name}/state`. -/
inductive Ev where
  | acquire (l : LockId)
  | release (l : LockId)
  | stateQuery (name : String)
  | submitReq (verb path : String)
  deriving DecidableEq

/-- `format!("/1.0/instances/{}/state", name)`. -/
def statePath (name : String) : String :=
  "/1.0/instances/" ++ name ++ "/state"

/-- `format!("/1.0/instances/{}", name)`. -/
def instancePath (name : String) : String :=
  "/1.0/instances/" ++ name

/-- The four non-blocking mutation kinds of the async submit path. -/
inductive ActionKind where
  | start
  | stop
  | restart
  | delete
  deriving DecidableEq

/-- Event trace of `LxcClient::{start,stop,restart,delete}_container_async`
(src/lxc.rs lines 349-379): lock the `api_client` mutex, issue the
non-blocking mutation through the API client (src/lxd_api.rs lines
449-503), release the mutex when the guard drops at the end of the method.
No other lock is taken: in particular `operation_lock` is never touched. -/
def asyncSubmitEvents : ActionKind → String → List Ev
  | .start, name =>
    [.acquire .api_client, .submitReq "PUT" (statePath name), .release .api_client]
  | .stop, name =>
    [.acquire .api_client, .submitReq "PUT" (statePath name), .release .api_client]
  | .restart, name =>
    [.acquire .api_client, .submitReq "PUT" (statePath name), .release .api_client]
  | .delete, name =>
    [.acquire .api_client, .submitReq "DELETE" (instancePath name), .release .api_client]

/-- The queried container state (`ContainerState` of src/lxd_api.rs,
restricted to the fields `LxcClient` reads). -/
structure ContState where
  status : String
  status_code : Int
  deriving DecidableEq

/-- `LxcClient::start_container` (src/lxc.rs lines 199-218): result and
event trace up to the submission decision. Acquires `operation_lock`, then
the `api_client` mutex, queries the container state; if the state already
reads `"Running"` it returns `Ok(())` having issued no mutation, otherwise
it issues the blocking start mutation and waits. `stateRes` is the daemon's
answer to the state query, `submitRes` the outcome of the start call,
`waitRes` the outcome of `wait_for_state` (whose own polling issues only
state queries, elided from the trace along with the final lock releases —
neither adds a mutation event). -/
def start_container (name : String) (stateRes : Except String ContState)
    (submitRes : Except String Unit) (waitRes : Except String Unit) :
    Except String Unit × List Ev :=
  let hdr := [Ev.acquire .operation_lock, Ev.acquire .api_client, Ev.stateQuery name]
  match stateRes with
  | .error e => (.error e, hdr)
  | .ok s =>
    if s.status = "Running" then
      (.ok (), hdr)
    else
      let evs := hdr ++ [Ev.submitReq "PUT" (statePath name)]
      match submitRes with
      | .error e => (.error e, evs)
      | .ok _ => (waitRes, evs)

/-- `LxcClient::stop_container` (src/lxc.rs lines 220-237), symmetric to
`start_container` with the early return on a state already reading
`"Stopped"`. -/
def stop_container (name : String) (stateRes : Except String ContState)
    (submitRes : Except String Unit) (waitRes : Except String Unit) :
    Except String Unit × List Ev :=
  let hdr := [Ev.acquire .operation_lock, Ev.acquire .api_client, Ev.stateQuery name]
  match stateRes with
  | .error e => (.error e, hdr)
  | .ok s =>
    if s.status = "Stopped" then
      (.ok (), hdr)
    else
      let evs := hdr ++ [Ev.submitReq "PUT" (statePath name)]
      match submitRes with
      | .error e => (.error e, evs)
      | .ok _ => (waitRes, evs)

/-- Whether a trace contains a mutation request. -/
def hasSubmit (evs : List Ev) : Bool :=
  evs.any (fun e => match e with | .submitReq _ _ => true | _ => false)

/-- Walk a trace keeping the multiset of locks held; `true` iff every
mutation request happens while lock `l` is held. -/
def submitsGuardedByAux (l : LockId) (held : List LockId) : List Ev → Bool
  | [] => true
  | .acquire k :: rest => submitsGuardedByAux l (k :: held) rest
  | .release k :: rest => submitsGuardedByAux l (held.erase k) rest
  | .stateQuery _ :: rest => submitsGuardedByAux l held rest
  | .submitReq _ _ :: rest => held.contains l && submitsGuardedByAux l held rest

/-- Every mutation request of the trace happens while lock `l` is held. -/
def submitsGuardedBy (l : LockId) (evs : List Ev) : Bool :=
  submitsGuardedByAux l [] evs

/-! ### Interleavings of two tasks and mutual exclusion

`Shuffle xs ys zs` holds when `zs` is an order-preserving interleaving of
the two per-task event sequences `xs` and `ys`. Events are tagged with the
issuing task. `exclusiveOkAux` encodes the semantics of the shared
`api_client` mutex: an interleaving is admissible only if no task acquires
it while the other holds it (a `tokio::sync::Mutex` suspends the second
acquirer until release). -/

/-- Order-preserving interleaving of two sequences. -/
inductive Shuffle {α : Type} : List α → List α → List α → Prop where
  | nil : Shuffle [] [] []
  | left : ∀ {x : α} {xs ys zs : List α}, Shuffle xs ys zs → Shuffle (x :: xs) ys (x :: zs)
  | right : ∀ {y : α} {xs ys zs : List α}, Shuffle xs ys zs → Shuffle xs (y :: ys) (y :: zs)

/-- Tag every event of a task's trace with the task number. -/
def tagged (t : Nat) (evs : List Ev) : List (Nat × Ev) :=
  evs.map (fun e => (t, e))

/-- Mutual-exclusion semantics of the `api_client` mutex over a tagged
interleaving: `holder` is the task currently holding it; acquiring requires
it free, releasing requires the releaser to hold it; all other events are
unrestricted. -/
def exclusiveOkAux (holder : Option Nat) : List (Nat × Ev) → Bool
  | [] => true
  | (t, Ev.acquire LockId.api_client) :: rest =>
    (match holder with
     | none => exclusiveOkAux (some t) rest
     | some _ => false)
  | (t, Ev.release LockId.api_client) :: rest =>
    (match holder with
     | some h => if h = t then exclusiveOkAux none rest else false
     | none => false)
  | _ :: rest => exclusiveOkAux holder rest

/-- An admissible interleaving starting with the mutex free. -/
def exclusiveOk (zs : List (Nat × Ev)) : Bool :=
  exclusiveOkAux none zs

/-! ### Concrete scenario states used by witnesses and counterexamples -/

/-- A daemon that answers every operation poll with the given snapshot. -/
def pollConst (code : Int) (e : String) : String → Except String LxdOp :=
  fun _ => .ok { status_code := code, err := e, progress := none }

/-- A daemon whose operation polls all fail at the transport layer. -/
def pollErr : String → Except String LxdOp :=
  fun _ => .error "connection reset by peer"

/-- The state after the user confirms starting container `web1` at time 5
and the daemon accepts, returning the job handle `/1.0/operations/abc`: one
`Running` record `u1` and one tracker `u1`. -/
def liveState : AppState :=
  handle_confirmation_yes initialApp (.StartContainer "web1") "u1" 5
    (.ok "/1.0/operations/abc")

/-- The record `liveState` holds for `u1`. -/
def liveRecord : UserOperation :=
  { id := "u1"
    description := "Start container 'web1'"
    container := some "web1"
    status := .Running
    started_at := some 5
    completed_at := none
    retry_count := 0 }

/-- The tracker `liveState` holds for `u1`. -/
def liveTracker : LxdOperationTracker :=
  newTracker "u1" "/1.0/operations/abc" "Start container 'web1'" "web1" "start" 5

/-- Register a sequence of operations with the given ids. -/
def regMany (ids : List String) (st : AppState) : AppState :=
  ids.foldl (fun s i => register_operation s i ("op " ++ i) none) st

/-- A reachable state violating the record/tracker correlation: nine
records are registered, then the user confirms starting `web1` (record and
tracker `u1`, the tenth record), then ten further registrations evict the
`u1` record from the capped history while its tracker stays. -/
def evictedState : AppState :=
  regMany ["b1", "b2", "b3", "b4", "b5", "b6", "b7", "b8", "b9", "b10"]
    (handle_confirmation_yes
      (regMany ["a1", "a2", "a3", "a4", "a5", "a6", "a7", "a8", "a9"] initialApp)
      (.StartContainer "web1") "u1" 5 (.ok "/1.0/operations/abc"))

/-! ### Derived classification (spec §4.3), used to state the tick theorems -/

/-- Whether a status code is terminal for the tick (success, failure or
cancellation arms). -/
def isTerminalCode (c : Int) : Bool :=
  c = 200 ∨ c = 400 ∨ c = 401

/-- The record resulting from one tick's classification of snapshot `j`:
200 marks success, 400 and 401 mark failure carrying the daemon's `err`
string, everything else leaves the record untouched. -/
def recordAfter (j : LxdOp) (r : UserOperation) (now : Nat) : UserOperation :=
  if j.status_code = 200 then
    { r with status := .Success, completed_at := some now }
  else if j.status_code = 400 ∨ j.status_code = 401 then
    { r with status := .Failed j.err, completed_at := some now }
  else r

/-- A synchronously rejected envelope: no `operation`, status code 400 and
the daemon error string present. -/
def rejectedEnvelope : LxdResponseRaw :=
  { response_type := "error"
    status := "Bad Request"
    status_code := 400
    metadata := none
    operation := none
    error := some "boom"
    error_code := some 400 }

/-- A successful envelope carrying only a job handle. -/
def acceptedEnvelope : LxdResponseRaw :=
  { response_type := "async"
    status := "Operation created"
    status_code := 100
    metadata := none
    operation := some "/1.0/operations/abc"
    error := none
    error_code := none }

/-! ## Theorems

First the infrastructure lemmas on the association-list and record-list
primitives, then the frame and effect lemmas for the tick, then one theorem
(plus witness or counterexample) per claim. -/

theorem lookupA_mem {id : String} {tr : LxdOperationTracker} :
    ∀ {m : List (String × LxdOperationTracker)}, lookupA id m = some tr → (id, tr) ∈ m := by
  intro m h
  induction m with
  | nil => simp [lookupA] at h
  | cons e rest ih =>
    obtain ⟨a, b⟩ := e
    by_cases he : a = id
    · subst he
      simp [lookupA] at h
      subst h
      exact List.mem_cons_self _ _
    · simp [lookupA, he] at h
      exact List.mem_cons_of_mem _ (ih h)

theorem lookupA_updateA_ne {k id : String} (h : k ≠ id)
    (f : LxdOperationTracker → LxdOperationTracker) :
    ∀ m : List (String × LxdOperationTracker),
      lookupA id (updateA k f m) = lookupA id m := by
  intro m
  induction m with
  | nil => rfl
  | cons e rest ih =>
    obtain ⟨a, b⟩ := e
    by_cases he : a = k
    · subst he
      simp [updateA, lookupA, h, ih]
    · by_cases hid : a = id
      · simp [updateA, lookupA, he, hid, h.symm]
      · simp [updateA, lookupA, he, hid, ih]

theorem lookupA_updateA_self (k : String)
    (f : LxdOperationTracker → LxdOperationTracker) :
    ∀ m : List (String × LxdOperationTracker),
      lookupA k (updateA k f m) = (lookupA k m).map f := by
  intro m
  induction m with
  | nil => rfl
  | cons e rest ih =>
    by_cases he : e.1 = k
    · simp [updateA, lookupA, he]
    · simp [updateA, lookupA, he, ih]

theorem keys_updateA (k : String) (f : LxdOperationTracker → LxdOperationTracker) :
    ∀ m : List (String × LxdOperationTracker),
      (updateA k f m).map Prod.fst = m.map Prod.fst := by
  intro m
  induction m with
  | nil => rfl
  | cons e rest ih =>
    by_cases he : e.1 = k
    · simp [updateA, he]
    · simp [updateA, he, ih]

theorem lookupA_removeA_ne {k id : String} (h : k ≠ id) :
    ∀ m : List (String × LxdOperationTracker),
      lookupA id (removeA k m) = lookupA id m := by
  intro m
  induction m with
  | nil => rfl
  | cons e rest ih =>
    obtain ⟨a, b⟩ := e
    by_cases he : a = k
    · subst he
      have hne : ¬ a = id := h
      simp [removeA, lookupA, hne]
    · by_cases hid : a = id
      · simp [removeA, lookupA, he, hid, h.symm]
      · simp [removeA, lookupA, he, hid, ih]

theorem lookupA_not_mem_keys {id : String} :
    ∀ {m : List (String × LxdOperationTracker)},
      id ∉ m.map Prod.fst → lookupA id m = none := by
  intro m h
  induction m with
  | nil => rfl
  | cons e rest ih =>
    simp only [List.map_cons, List.mem_cons] at h
    push_neg at h
    have he : ¬ e.1 = id := fun hc => h.1 hc.symm
    simp [lookupA, he, ih h.2]

theorem lookupA_removeA_self {k : String} :
    ∀ {m : List (String × LxdOperationTracker)},
      (m.map Prod.fst).Nodup → lookupA k (removeA k m) = none := by
  intro m hnd
  induction m with
  | nil => rfl
  | cons e rest ih =>
    simp only [List.map_cons, List.nodup_cons] at hnd
    by_cases he : e.1 = k
    · subst he
      simp only [removeA, if_pos rfl]
      exact lookupA_not_mem_keys hnd.1
    · simp [removeA, lookupA, he, ih hnd.2]

theorem keys_removeA_sublist (k : String) :
    ∀ m : List (String × LxdOperationTracker),
      List.Sublist ((removeA k m).map Prod.fst) (m.map Prod.fst) := by
  intro m
  induction m with
  | nil => simp [removeA]
  | cons e rest ih =>
    by_cases he : e.1 = k
    · simp only [removeA, if_pos he, List.map_cons]
      exact (List.sublist_cons_self _ _)
    · simp only [removeA, if_neg he, List.map_cons]
      exact ih.cons₂ _

theorem lookupA_none_removeA {id k : String} :
    ∀ {m : List (String × LxdOperationTracker)},
      lookupA id m = none → lookupA id (removeA k m) = none := by
  intro m h
  induction m with
  | nil => rfl
  | cons e rest ih =>
    by_cases hid : e.1 = id
    · simp [lookupA, hid] at h
    · simp only [lookupA, if_neg hid] at h
      by_cases he : e.1 = k
      · simp only [removeA, if_pos he]
        exact h
      · simp [removeA, lookupA, he, hid, ih h]

theorem foldl_removeA_of_not_mem {id : String} :
    ∀ (L : List String) (m : List (String × LxdOperationTracker)), id ∉ L →
      lookupA id (L.foldl (fun m k => removeA k m) m) = lookupA id m := by
  intro L
  induction L with
  | nil => intro m _; rfl
  | cons k L ih =>
    intro m h
    simp only [List.mem_cons] at h
    push_neg at h
    rw [List.foldl_cons, ih _ h.2, lookupA_removeA_ne (fun hc => h.1 hc.symm)]

theorem foldl_removeA_none {id : String} :
    ∀ (L : List String) (m : List (String × LxdOperationTracker)),
      lookupA id m = none →
      lookupA id (L.foldl (fun m k => removeA k m) m) = none := by
  intro L
  induction L with
  | nil => intro m h; exact h
  | cons k L ih =>
    intro m h
    rw [List.foldl_cons]
    exact ih _ (lookupA_none_removeA h)

theorem foldl_removeA_of_mem {id : String} :
    ∀ (L : List String) (m : List (String × LxdOperationTracker)),
      id ∈ L → (m.map Prod.fst).Nodup →
      lookupA id (L.foldl (fun m k => removeA k m) m) = none := by
  intro L
  induction L with
  | nil => intro m h; simp at h
  | cons k L ih =>
    intro m h hnd
    rw [List.foldl_cons]
    by_cases hk : id = k
    · subst hk
      exact foldl_removeA_none L _ (lookupA_removeA_self hnd)
    · have hmem : id ∈ L := by
        rcases List.mem_cons.mp h with hc | hc
        · exact absurd hc hk
        · exact hc
      exact ih _ hmem (hnd.sublist (keys_removeA_sublist k m))

theorem lookupA_touchDue (now : Nat) (id : String) :
    ∀ m : List (String × LxdOperationTracker),
      lookupA id (touchDue now m) =
        (lookupA id m).map
          (fun t => if isDue now t then { t with last_checked := now } else t) := by
  intro m
  induction m with
  | nil => rfl
  | cons e rest ih =>
    obtain ⟨a, b⟩ := e
    by_cases hid : a = id
    · subst hid
      by_cases hd : isDue now b <;> simp [touchDue, lookupA, hd]
    · by_cases hd : isDue now b <;> simpa [touchDue, lookupA, hid, hd] using ih

theorem keys_touchDue (now : Nat) :
    ∀ m : List (String × LxdOperationTracker),
      (touchDue now m).map Prod.fst = m.map Prod.fst := by
  intro m
  induction m with
  | nil => rfl
  | cons e rest ih =>
    by_cases hd : isDue now e.2
    · simp [touchDue, hd] at ih ⊢
      exact ih
    · simp [touchDue, hd] at ih ⊢
      exact ih

theorem mem_operations_to_check {now : Nat} {id : String} {tr : LxdOperationTracker}
    {m : List (String × LxdOperationTracker)}
    (hlk : lookupA id m = some tr) (hdue : isDue now tr = true) :
    (id, tr.lxd_operation_path) ∈ operations_to_check now m := by
  have hm : (id, tr) ∈ m := lookupA_mem hlk
  have hf : (id, tr) ∈ m.filter (fun e => isDue now e.2) := by
    rw [List.mem_filter]
    exact ⟨hm, hdue⟩
  have := List.mem_map_of_mem (fun e : String × LxdOperationTracker =>
    (e.1, e.2.lxd_operation_path)) hf
  exact this

theorem keys_operations_to_check_sublist (now : Nat)
    (m : List (String × LxdOperationTracker)) :
    List.Sublist ((operations_to_check now m).map Prod.fst) (m.map Prod.fst) := by
  unfold operations_to_check
  rw [List.map_map]
  have he : (Prod.fst ∘ fun e : String × LxdOperationTracker =>
      (e.1, e.2.lxd_operation_path)) = Prod.fst := rfl
  rw [he]
  exact (List.filter_sublist m).map Prod.fst

theorem find?_updateFirst_of_ne {jd id : String}
    {f : UserOperation → UserOperation} (h : jd ≠ id)
    (hf : ∀ o, (f o).id = o.id) :
    ∀ l : List UserOperation,
      (updateFirst (fun o => o.id == jd) f l).find? (fun o => o.id == id) =
        l.find? (fun o => o.id == id) := by
  intro l
  induction l with
  | nil => rfl
  | cons o rest ih =>
    by_cases hj : o.id = jd
    · have hni : ¬ o.id = id := by
        rw [hj]; exact h
      have hni2 : ¬ (f o).id = id := by
        rw [hf o]; exact hni
      rw [updateFirst, if_pos (by simpa using hj)]
      rw [List.find?_cons_of_neg _ (by simpa using hni2),
        List.find?_cons_of_neg _ (by simpa using hni)]
    · rw [updateFirst, if_neg (by simpa using hj)]
      by_cases hi : o.id = id
      · rw [List.find?_cons_of_pos _ (by simpa using hi),
          List.find?_cons_of_pos _ (by simpa using hi)]
      · rw [List.find?_cons_of_neg _ (by simpa using hi),
          List.find?_cons_of_neg _ (by simpa using hi)]
        exact ih

theorem find?_updateFirst_self {id : String} {r : UserOperation}
    {f : UserOperation → UserOperation} (hf : ∀ o, (f o).id = o.id) :
    ∀ l : List UserOperation,
      l.find? (fun o => o.id == id) = some r →
      (updateFirst (fun o => o.id == id) f l).find? (fun o => o.id == id) =
        some (f r) := by
  intro l
  induction l with
  | nil => intro h; simp at h
  | cons o rest ih =>
    intro h
    by_cases hi : o.id = id
    · rw [List.find?_cons_of_pos _ (by simpa using hi)] at h
      have hor : o = r := by
        injection h
      subst hor
      rw [updateFirst, if_pos (by simpa using hi)]
      have hfi : (f o).id = id := by rw [hf o]; exact hi
      rw [List.find?_cons_of_pos _ (by simpa using hfi)]
    · rw [List.find?_cons_of_neg _ (by simpa using hi)] at h
      rw [updateFirst, if_neg (by simpa using hi)]
      rw [List.find?_cons_of_neg _ (by simpa using hi)]
      exact ih h

/-! ### Frame facts for the record mutators (src/app.rs) -/

theorem complete_operation_lxd (st : AppState) (id : String) (s : Bool)
    (e : Option String) (now : Nat) :
    (complete_operation st id s e now).lxd_operations = st.lxd_operations := by
  unfold complete_operation
  cases st.user_operations.find? (fun o => o.id == id) <;> rfl

theorem complete_operation_refresh (st : AppState) (id : String) (s : Bool)
    (e : Option String) (now : Nat) :
    (complete_operation st id s e now).refresh_requests = st.refresh_requests := by
  unfold complete_operation
  cases st.user_operations.find? (fun o => o.id == id) <;> rfl

theorem recOf_complete_ne {jd id : String} (h : jd ≠ id) (st : AppState)
    (s : Bool) (e : Option String) (now : Nat) :
    recOf (complete_operation st jd s e now) id = recOf st id := by
  unfold complete_operation recOf
  cases hfind : st.user_operations.find? (fun o => o.id == jd) with
  | none => rfl
  | some op =>
    simp only []
    exact find?_updateFirst_of_ne (f := fun o => { o with
      status := if s then OperationStatus.Success else OperationStatus.Failed (e.getD "")
      completed_at := some now }) h (fun o => rfl) st.user_operations

theorem recOf_complete_self {id : String} {r : UserOperation} (st : AppState)
    (s : Bool) (e : Option String) (now : Nat) (h : recOf st id = some r) :
    recOf (complete_operation st id s e now) id =
      some { r with
        status := if s then .Success else .Failed (e.getD "")
        completed_at := some now } := by
  unfold recOf at h
  unfold complete_operation recOf
  rw [h]
  simp only []
  exact find?_updateFirst_self (f := fun o => { o with
    status := if s then OperationStatus.Success else OperationStatus.Failed (e.getD "")
    completed_at := some now }) (fun o => rfl) st.user_operations h

theorem complete_operation_not_found {st : AppState} {id : String}
    (h : st.user_operations.find? (fun o => o.id == id) = none)
    (s : Bool) (e : Option String) (now : Nat) :
    complete_operation st id s e now = st := by
  unfold complete_operation
  rw [h]

/-! ### Frame and effect lemmas for one step of the tick's second pass -/

theorem withModal_user_operations (st : AppState) (m : Option StatusModalType) :
    (withModal st m).user_operations = st.user_operations := by
  cases m <;> rfl

theorem withModal_lxd (st : AppState) (m : Option StatusModalType) :
    (withModal st m).lxd_operations = st.lxd_operations := by
  cases m <;> rfl

theorem withModal_refresh (st : AppState) (m : Option StatusModalType) :
    (withModal st m).refresh_requests = st.refresh_requests := by
  cases m <;> rfl

theorem recOf_withModal (st : AppState) (m : Option StatusModalType) (id : String) :
    recOf (withModal st m) id = recOf st id := by
  cases m <;> rfl

theorem recOf_set_refresh (st : AppState) (n : Nat) (id : String) :
    recOf { st with refresh_requests := n } id = recOf st id := rfl

theorem lxd_set_refresh (st : AppState) (n : Nat) :
    ({ st with refresh_requests := n } : AppState).lxd_operations = st.lxd_operations := rfl

theorem refresh_set_refresh (st : AppState) (n : Nat) :
    ({ st with refresh_requests := n } : AppState).refresh_requests = n := rfl

theorem processOne_frame (poll : String → Except String LxdOp) (now : Nat)
    (acc : AppState × List String) (item : String × String) {id : String}
    (h : item.1 ≠ id) :
    recOf (processOne poll now acc item).1 id = recOf acc.1 id ∧
    lookupA id (processOne poll now acc item).1.lxd_operations =
      lookupA id acc.1.lxd_operations ∧
    (id ∈ (processOne poll now acc item).2 ↔ id ∈ acc.2) ∧
    acc.1.refresh_requests ≤ (processOne poll now acc item).1.refresh_requests ∧
    (processOne poll now acc item).1.lxd_operations.map Prod.fst =
      acc.1.lxd_operations.map Prod.fst := by
  cases hp : poll item.2 with
  | error e =>
    simp [processOne, hp]
  | ok j =>
    simp only [processOne, hp]
    by_cases h200 : j.status_code = 200
    · simp only [h200, if_true, if_pos]
      refine ⟨?_, ?_, ?_, ?_, ?_⟩
      · rw [recOf_set_refresh, recOf_withModal, recOf_complete_ne h]
        rfl
      · rw [lxd_set_refresh, withModal_lxd, complete_operation_lxd]
        exact lookupA_updateA_ne h _ acc.1.lxd_operations
      · simp [List.mem_append, (Ne.symm h)]
      · rw [refresh_set_refresh, withModal_refresh, complete_operation_refresh]
        exact Nat.le_succ _
      · rw [lxd_set_refresh, withModal_lxd, complete_operation_lxd]
        exact keys_updateA item.1 _ acc.1.lxd_operations
    · by_cases hfail : j.status_code = 400 ∨ j.status_code = 401
      · simp only [h200, hfail, if_false, if_true, if_neg, if_pos]
        refine ⟨?_, ?_, ?_, ?_, ?_⟩
        · rw [recOf_withModal, recOf_complete_ne h]
          rfl
        · rw [withModal_lxd, complete_operation_lxd]
          exact lookupA_updateA_ne h _ acc.1.lxd_operations
        · simp [List.mem_append, (Ne.symm h)]
        · rw [withModal_refresh, complete_operation_refresh]
        · rw [withModal_lxd, complete_operation_lxd]
          exact keys_updateA item.1 _ acc.1.lxd_operations
      · simp only [h200, hfail, if_false, if_neg]
        refine ⟨rfl, ?_, by simp, Nat.le_refl _, ?_⟩
        · exact lookupA_updateA_ne h _ acc.1.lxd_operations
        · exact keys_updateA item.1 _ acc.1.lxd_operations

theorem processOne_step_ok (poll : String → Except String LxdOp) (now : Nat)
    (st : AppState) (completed : List String) (id path : String) (j : LxdOp)
    (tr : LxdOperationTracker)
    (hpoll : poll path = .ok j)
    (hlk : lookupA id st.lxd_operations = some tr) :
    recOf (processOne poll now (st, completed) (id, path)).1 id =
      (recOf st id).map (fun r => recordAfter j r now) ∧
    lookupA id (processOne poll now (st, completed) (id, path)).1.lxd_operations =
      some (trackerAfterPoll j tr) ∧
    (id ∈ (processOne poll now (st, completed) (id, path)).2 ↔
      (id ∈ completed ∨ isTerminalCode j.status_code = true)) ∧
    (j.status_code = 200 → st.refresh_requests <
      (processOne poll now (st, completed) (id, path)).1.refresh_requests) ∧
    (¬ j.status_code = 200 →
      (processOne poll now (st, completed) (id, path)).1.refresh_requests =
        st.refresh_requests) ∧
    (processOne poll now (st, completed) (id, path)).1.lxd_operations.map Prod.fst =
      st.lxd_operations.map Prod.fst := by
  have hupd : lookupA id (updateA id (trackerAfterPoll j) st.lxd_operations) =
      some (trackerAfterPoll j tr) := by
    rw [lookupA_updateA_self, hlk]
    rfl
  simp only [processOne, hpoll]
  by_cases h200 : j.status_code = 200
  · simp only [h200, if_true, if_pos]
    refine ⟨?_, ?_, ?_, ?_, ?_, ?_⟩
    · rw [recOf_set_refresh, recOf_withModal]
      cases hrec : recOf st id with
      | none =>
        have hn : ({ st with lxd_operations := (updateA id (trackerAfterPoll j) st.lxd_operations) } : AppState).user_operations.find? (fun o => o.id == id) = none := hrec
        rw [complete_operation_not_found hn]
        exact hrec
      | some r =>
        have hs : recOf ({ st with lxd_operations := (updateA id (trackerAfterPoll j) st.lxd_operations) } : AppState) id = some r := hrec
        rw [recOf_complete_self _ true none now hs]
        simp [recordAfter, h200]
    · rw [lxd_set_refresh, withModal_lxd, complete_operation_lxd]
      exact hupd
    · simp [List.mem_append, isTerminalCode, h200]
    · intro _
      rw [refresh_set_refresh, withModal_refresh, complete_operation_refresh]
      exact Nat.lt_succ_self _
    · intro hc
      exact absurd trivial hc
    · rw [lxd_set_refresh, withModal_lxd, complete_operation_lxd]
      exact keys_updateA id _ st.lxd_operations
  · by_cases hfail : j.status_code = 400 ∨ j.status_code = 401
    · simp only [h200, hfail, if_false, if_true, if_neg, if_pos]
      refine ⟨?_, ?_, ?_, ?_, ?_, ?_⟩
      · rw [recOf_withModal]
        cases hrec : recOf st id with
        | none =>
          have hn : ({ st with lxd_operations := (updateA id (trackerAfterPoll j) st.lxd_operations) } : AppState).user_operations.find? (fun o => o.id == id) = none := hrec
          rw [complete_operation_not_found hn]
          exact hrec
        | some r =>
          have hs : recOf ({ st with lxd_operations := (updateA id (trackerAfterPoll j) st.lxd_operations) } : AppState) id = some r := hrec
          rw [recOf_complete_self _ false (some j.err) now hs]
          rcases hfail with hf | hf <;>
            simp [recordAfter, h200, hf, Option.getD]
      · rw [withModal_lxd, complete_operation_lxd]
        exact hupd
      · have ht : isTerminalCode j.status_code = true := by
          rcases hfail with hf | hf <;> simp [isTerminalCode, hf]
        simp [List.mem_append, ht]
      · intro hc
        exact hc.elim
      · intro _
        rw [withModal_refresh, complete_operation_refresh]
      · rw [withModal_lxd, complete_operation_lxd]
        exact keys_updateA id _ st.lxd_operations
    · simp only [h200, hfail, if_false, if_neg]
      have ht : isTerminalCode j.status_code = false := by
        simp [isTerminalCode, h200]
        constructor
        · intro hc; exact hfail (Or.inl hc)
        · intro hc; exact hfail (Or.inr hc)
      refine ⟨?_, hupd, ?_, ?_, ?_, ?_⟩
      · cases hrec : recOf st id with
        | none => exact hrec
        | some r =>
          have hsame : recOf ({ st with lxd_operations := (updateA id (trackerAfterPoll j) st.lxd_operations) } : AppState) id = some r := hrec
          rw [hsame]
          simp [recordAfter, h200, hfail]
      · simp [ht]
      · intro hc
        exact hc.elim
      · intro _
        trivial
      · exact keys_updateA id _ st.lxd_operations

theorem processOne_refresh_eq (poll : String → Except String LxdOp) (now : Nat)
    (acc : AppState × List String) (item : String × String)
    (hno : ∀ j, poll item.2 = .ok j → ¬ j.status_code = 200) :
    (processOne poll now acc item).1.refresh_requests = acc.1.refresh_requests := by
  cases hp : poll item.2 with
  | error e => simp [processOne, hp]
  | ok j =>
    have h200 := hno j hp
    simp only [processOne, hp]
    by_cases hfail : j.status_code = 400 ∨ j.status_code = 401
    · simp only [h200, hfail, if_false, if_true, if_neg, if_pos]
      rw [withModal_refresh, complete_operation_refresh]
    · simp only [h200, hfail, if_false, if_neg]

theorem foldl_processOne_frame (poll : String → Except String LxdOp) (now : Nat)
    {id : String} :
    ∀ (l : List (String × String)) (acc : AppState × List String),
      (∀ it ∈ l, it.1 ≠ id) →
      recOf (l.foldl (processOne poll now) acc).1 id = recOf acc.1 id ∧
      lookupA id (l.foldl (processOne poll now) acc).1.lxd_operations =
        lookupA id acc.1.lxd_operations ∧
      (id ∈ (l.foldl (processOne poll now) acc).2 ↔ id ∈ acc.2) ∧
      acc.1.refresh_requests ≤ (l.foldl (processOne poll now) acc).1.refresh_requests ∧
      (l.foldl (processOne poll now) acc).1.lxd_operations.map Prod.fst =
        acc.1.lxd_operations.map Prod.fst := by
  intro l
  induction l with
  | nil =>
    intro acc _
    exact ⟨rfl, rfl, Iff.rfl, Nat.le_refl _, rfl⟩
  | cons it rest ih =>
    intro acc h
    rw [List.foldl_cons]
    have h1 := processOne_frame poll now acc it (h it (List.mem_cons_self _ _))
    have h2 := ih (processOne poll now acc it)
      (fun x hx => h x (List.mem_cons_of_mem _ hx))
    exact ⟨h2.1.trans h1.1, h2.2.1.trans h1.2.1, h2.2.2.1.trans h1.2.2.1,
      Nat.le_trans h1.2.2.2.1 h2.2.2.2.1, h2.2.2.2.2.trans h1.2.2.2.2⟩

theorem foldl_processOne_refresh_eq (poll : String → Except String LxdOp) (now : Nat) :
    ∀ (l : List (String × String)) (acc : AppState × List String),
      (∀ it ∈ l, ∀ j, poll it.2 = .ok j → ¬ j.status_code = 200) →
      (l.foldl (processOne poll now) acc).1.refresh_requests =
        acc.1.refresh_requests := by
  intro l
  induction l with
  | nil => intro acc _; rfl
  | cons it rest ih =>
    intro acc h
    rw [List.foldl_cons]
    rw [ih (processOne poll now acc it) (fun x hx => h x (List.mem_cons_of_mem _ hx))]
    exact processOne_refresh_eq poll now acc it (h it (List.mem_cons_self _ _))

theorem recOf_set_lxd (st : AppState) (m : List (String × LxdOperationTracker))
    (id : String) :
    recOf { st with lxd_operations := m } id = recOf st id := rfl

theorem refresh_set_lxd (st : AppState) (m : List (String × LxdOperationTracker)) :
    ({ st with lxd_operations := m } : AppState).refresh_requests =
      st.refresh_requests := rfl

/-- Splitting the due-tracker hypotheses: the polled entry sits somewhere in
`operations_to_check`, with distinct ids on both sides. -/
theorem operations_to_check_split {now : Nat} {st : AppState} {id : String}
    {tr : LxdOperationTracker}
    (hnd : (st.lxd_operations.map Prod.fst).Nodup)
    (hlk : lookupA id st.lxd_operations = some tr)
    (hdue : isDue now tr = true) :
    ∃ l₁ l₂, operations_to_check now st.lxd_operations =
        l₁ ++ (id, tr.lxd_operation_path) :: l₂ ∧
      (∀ it ∈ l₁, it.1 ≠ id) ∧ (∀ it ∈ l₂, it.1 ≠ id) := by
  obtain ⟨l₁, l₂, htc⟩ :=
    List.append_of_mem (mem_operations_to_check hlk hdue)
  have hndk : ((operations_to_check now st.lxd_operations).map Prod.fst).Nodup :=
    hnd.sublist (keys_operations_to_check_sublist now st.lxd_operations)
  rw [htc, List.map_append, List.map_cons, List.nodup_append] at hndk
  obtain ⟨hnd1, hnd2, hdisj⟩ := hndk
  rw [List.nodup_cons] at hnd2
  refine ⟨l₁, l₂, htc, ?_, ?_⟩
  · intro it hit hc
    have hmm : it.1 ∈ l₁.map Prod.fst := List.mem_map_of_mem Prod.fst hit
    rw [hc] at hmm
    exact hdisj hmm (List.mem_cons_self _ _)
  · intro it hit hc
    have hmm : it.1 ∈ l₂.map Prod.fst := List.mem_map_of_mem Prod.fst hit
    rw [hc] at hmm
    exact hnd2.1 hmm

/-- Master effect lemma for one tick on a due tracker whose poll fetched
snapshot `j`: the record is rewritten by the §4.3 classification, the
tracker is removed exactly when the code is terminal (otherwise kept with
updated bookkeeping), and a 200 code triggers a container-list refresh. -/
theorem tick_effect_ok (poll : String → Except String LxdOp) (now : Nat)
    (st : AppState) (id : String) (tr : LxdOperationTracker) (j : LxdOp)
    (hnd : (st.lxd_operations.map Prod.fst).Nodup)
    (hlk : lookupA id st.lxd_operations = some tr)
    (hdue : isDue now tr = true)
    (hpoll : poll tr.lxd_operation_path = .ok j) :
    recOf (poll_lxd_operations poll now st) id =
      (recOf st id).map (fun r => recordAfter j r now) ∧
    lookupA id (poll_lxd_operations poll now st).lxd_operations =
      (if isTerminalCode j.status_code = true then none
       else some (trackerAfterPoll j { tr with last_checked := now })) ∧
    (j.status_code = 200 →
      st.refresh_requests < (poll_lxd_operations poll now st).refresh_requests) := by
  obtain ⟨l₁, l₂, htc, hne1, hne2⟩ := operations_to_check_split hnd hlk hdue
  have hlk1 : lookupA id (touchDue now st.lxd_operations) =
      some { tr with last_checked := now } := by
    rw [lookupA_touchDue, hlk]
    simp [hdue]
  simp only [poll_lxd_operations]
  rw [htc, List.foldl_append, List.foldl_cons]
  have hfr1 := foldl_processOne_frame poll now l₁
    (({ st with lxd_operations := touchDue now st.lxd_operations } : AppState), []) hne1
  obtain ⟨ha_rec, ha_lk, ha_mem, ha_ref, ha_keys⟩ := hfr1
  have hstep := processOne_step_ok poll now
    (List.foldl (processOne poll now)
      (({ st with lxd_operations := touchDue now st.lxd_operations } : AppState), []) l₁).1
    (List.foldl (processOne poll now)
      (({ st with lxd_operations := touchDue now st.lxd_operations } : AppState), []) l₁).2
    id tr.lxd_operation_path j { tr with last_checked := now } hpoll
    (ha_lk.trans hlk1)
  rw [Prod.mk.eta] at hstep
  obtain ⟨hs_rec, hs_lk, hs_mem, hs_lt, hs_eq, hs_keys⟩ := hstep
  have hfr2 := foldl_processOne_frame poll now l₂
    (processOne poll now (List.foldl (processOne poll now)
      (({ st with lxd_operations := touchDue now st.lxd_operations } : AppState), []) l₁)
      (id, tr.lxd_operation_path)) hne2
  obtain ⟨hb_rec, hb_lk, hb_mem, hb_ref, hb_keys⟩ := hfr2
  have hkeys_final : (List.foldl (processOne poll now)
      (processOne poll now (List.foldl (processOne poll now)
        (({ st with lxd_operations := touchDue now st.lxd_operations } : AppState), []) l₁)
        (id, tr.lxd_operation_path)) l₂).1.lxd_operations.map Prod.fst =
      st.lxd_operations.map Prod.fst := by
    rw [hb_keys, hs_keys, ha_keys]
    exact keys_touchDue now st.lxd_operations
  have hmem_notin : id ∉ (List.foldl (processOne poll now)
      (({ st with lxd_operations := touchDue now st.lxd_operations } : AppState), [])
      l₁).2 := by
    intro hc
    simp only [ha_mem] at hc
    exact (List.not_mem_nil id) hc
  refine ⟨?_, ?_, ?_⟩
  · rw [recOf_set_lxd]
    rw [hb_rec, hs_rec, ha_rec]
    rfl
  · by_cases hterm : isTerminalCode j.status_code = true
    · rw [if_pos hterm]
      have hmem2 : id ∈ (processOne poll now (List.foldl (processOne poll now)
          (({ st with lxd_operations := touchDue now st.lxd_operations } : AppState), []) l₁)
          (id, tr.lxd_operation_path)).2 :=
        hs_mem.mpr (Or.inr hterm)
      exact foldl_removeA_of_mem _ _ (hb_mem.mpr hmem2) (hkeys_final ▸ hnd)
    · rw [if_neg hterm]
      have hmem2 : id ∉ (processOne poll now (List.foldl (processOne poll now)
          (({ st with lxd_operations := touchDue now st.lxd_operations } : AppState), []) l₁)
          (id, tr.lxd_operation_path)).2 := by
        intro hc
        rcases hs_mem.mp hc with hc2 | hc2
        · exact hmem_notin hc2
        · exact hterm hc2
      rw [foldl_removeA_of_not_mem _ _ (fun hc => hmem2 (hb_mem.mp hc))]
      rw [hb_lk]
      exact hs_lk
  · intro h200
    have h1 : st.refresh_requests ≤ (List.foldl (processOne poll now)
        (({ st with lxd_operations := touchDue now st.lxd_operations } : AppState), [])
        l₁).1.refresh_requests := ha_ref
    have h2 := hs_lt h200
    have h3 := hb_ref
    rw [refresh_set_lxd]
    exact Nat.lt_of_le_of_lt h1 (Nat.lt_of_lt_of_le h2 h3)

/-- `processOne` on a transport/protocol poll error changes nothing. -/
theorem processOne_error (poll : String → Except String LxdOp) (now : Nat)
    (acc : AppState × List String) (item : String × String) {e : String}
    (hp : poll item.2 = .error e) :
    processOne poll now acc item = acc := by
  simp [processOne, hp]

/-- Master effect lemma for one tick on a due tracker whose poll failed at
the transport layer: the record is untouched and the tracker is kept (with
only its `last_checked` stamp advanced) for retry on the next tick. -/
theorem tick_effect_error (poll : String → Except String LxdOp) (now : Nat)
    (st : AppState) (id : String) (tr : LxdOperationTracker) {e : String}
    (hnd : (st.lxd_operations.map Prod.fst).Nodup)
    (hlk : lookupA id st.lxd_operations = some tr)
    (hdue : isDue now tr = true)
    (hpoll : poll tr.lxd_operation_path = .error e) :
    recOf (poll_lxd_operations poll now st) id = recOf st id ∧
    lookupA id (poll_lxd_operations poll now st).lxd_operations =
      some { tr with last_checked := now } := by
  obtain ⟨l₁, l₂, htc, hne1, hne2⟩ := operations_to_check_split hnd hlk hdue
  have hlk1 : lookupA id (touchDue now st.lxd_operations) =
      some { tr with last_checked := now } := by
    rw [lookupA_touchDue, hlk]
    simp [hdue]
  simp only [poll_lxd_operations]
  rw [htc, List.foldl_append, List.foldl_cons]
  rw [processOne_error poll now _ _ hpoll]
  have hfr1 := foldl_processOne_frame poll now l₁
    (({ st with lxd_operations := touchDue now st.lxd_operations } : AppState), []) hne1
  obtain ⟨ha_rec, ha_lk, ha_mem, ha_ref, ha_keys⟩ := hfr1
  have hfr2 := foldl_processOne_frame poll now l₂
    (List.foldl (processOne poll now)
      (({ st with lxd_operations := touchDue now st.lxd_operations } : AppState), []) l₁)
    hne2
  obtain ⟨hb_rec, hb_lk, hb_mem, hb_ref, hb_keys⟩ := hfr2
  have hmem_notin : id ∉ (List.foldl (processOne poll now)
      (List.foldl (processOne poll now)
        (({ st with lxd_operations := touchDue now st.lxd_operations } : AppState), []) l₁)
      l₂).2 := by
    intro hc
    have := ha_mem.mp (hb_mem.mp hc)
    exact (List.not_mem_nil id) this
  constructor
  · rw [recOf_set_lxd]
    rw [hb_rec, ha_rec]
    rfl
  · rw [foldl_removeA_of_not_mem _ _ hmem_notin]
    rw [hb_lk, ha_lk]
    exact hlk1

/-- If no due tracker's poll reports code 200, the tick requests no
container-list refresh. -/
theorem tick_no_refresh (poll : String → Except String LxdOp) (now : Nat)
    (st : AppState)
    (hall : ∀ it ∈ operations_to_check now st.lxd_operations,
      ∀ j, poll it.2 = .ok j → ¬ j.status_code = 200) :
    (poll_lxd_operations poll now st).refresh_requests = st.refresh_requests := by
  simp only [poll_lxd_operations]
  rw [refresh_set_lxd]
  exact foldl_processOne_refresh_eq poll now _ _ hall

/-! ### Lemmas for the record mutators and the submit path -/

theorem cancel_operation_lxd (st : AppState) (id : String) (now : Nat) :
    (cancel_operation st id now).lxd_operations = st.lxd_operations := by
  unfold cancel_operation
  cases st.user_operations.find? (fun o => o.id == id) <;> rfl

theorem recOf_cancel_self {id : String} {r : UserOperation} (st : AppState)
    (now : Nat) (h : recOf st id = some r) :
    recOf (cancel_operation st id now) id =
      some { r with status := .Cancelled, completed_at := some now } := by
  unfold recOf at h
  unfold cancel_operation recOf
  rw [h]
  simp only []
  exact find?_updateFirst_self (f := fun o =>
    { o with status := .Cancelled, completed_at := some now }) (fun o => rfl)
    st.user_operations h

theorem start_operation_lxd (st : AppState) (id : String) (now : Nat) :
    (start_operation st id now).lxd_operations = st.lxd_operations := by
  unfold start_operation
  cases st.user_operations.find? (fun o => o.id == id) <;> rfl

theorem recOf_start_self {id : String} {r : UserOperation} (st : AppState)
    (now : Nat) (h : recOf st id = some r) :
    recOf (start_operation st id now) id =
      some { r with status := .Running, started_at := some now } := by
  unfold recOf at h
  unfold start_operation recOf
  rw [h]
  simp only []
  exact find?_updateFirst_self (f := fun o =>
    { o with status := .Running, started_at := some now }) (fun o => rfl)
    st.user_operations h

theorem find?_append_left {p : UserOperation → Bool} {r : UserOperation} :
    ∀ (l₁ l₂ : List UserOperation), l₁.find? p = some r →
      (l₁ ++ l₂).find? p = some r := by
  intro l₁
  induction l₁ with
  | nil => intro l₂ h; simp at h
  | cons o rest ih =>
    intro l₂ h
    by_cases hp : p o = true
    · rw [List.find?_cons_of_pos _ hp] at h
      rw [List.cons_append, List.find?_cons_of_pos _ hp]
      exact h
    · rw [List.find?_cons_of_neg _ (by simpa using hp)] at h
      rw [List.cons_append, List.find?_cons_of_neg _ (by simpa using hp)]
      exact ih l₂ h

theorem find?_append_singleton {p : UserOperation → Bool} {x : UserOperation}
    (hx : p x = true) :
    ∀ l : List UserOperation, (∀ o ∈ l, p o = false) →
      (l ++ [x]).find? p = some x := by
  intro l
  induction l with
  | nil =>
    intro _
    rw [List.nil_append, List.find?_cons_of_pos _ hx]
  | cons o rest ih =>
    intro h
    have ho : p o = false := h o (List.mem_cons_self _ _)
    rw [List.cons_append, List.find?_cons_of_neg _ (by simp [ho])]
    exact ih (fun x2 hx2 => h x2 (List.mem_cons_of_mem _ hx2))

theorem register_operation_lxd (st : AppState) (newId d : String)
    (c : Option String) :
    (register_operation st newId d c).lxd_operations = st.lxd_operations := rfl

theorem register_operation_length (st : AppState) (newId d : String)
    (c : Option String) (h : st.user_operations.length ≤ 10) :
    (register_operation st newId d c).user_operations.length ≤ 10 := by
  simp only [register_operation]
  split
  · simp
    omega
  · simp at *
    omega

theorem register_operation_at_cap (st : AppState) (newId d : String)
    (c : Option String) (h : st.user_operations.length = 10) :
    (register_operation st newId d c).user_operations =
      st.user_operations.tail ++ [newUserOp newId d c] := by
  simp only [register_operation]
  rw [if_pos (by simp [h])]
  rw [List.drop_append_of_le_length (by omega)]
  rw [← List.drop_one]

theorem register_operation_length_le (st : AppState) (newId d : String)
    (c : Option String) (h : st.user_operations.length < 10) :
    (register_operation st newId d c).user_operations =
      st.user_operations ++ [newUserOp newId d c] := by
  simp only [register_operation]
  rw [if_neg (by simp; omega)]

theorem recOf_register_fresh (st : AppState) (newId d : String)
    (c : Option String)
    (hfresh : ∀ o ∈ st.user_operations, o.id ≠ newId) :
    recOf (register_operation st newId d c) newId =
      some (newUserOp newId d c) := by
  have hx : (fun o : UserOperation => o.id == newId) (newUserOp newId d c) = true := by
    simp [newUserOp]
  have hl : ∀ o ∈ st.user_operations,
      (fun o : UserOperation => o.id == newId) o = false := by
    intro o ho
    simp [hfresh o ho]
  unfold recOf
  simp only [register_operation]
  split
  · next hlen =>
    rw [List.drop_append_of_le_length (by simp at hlen; omega)]
    exact find?_append_singleton hx _
      (fun o ho => hl o (List.drop_subset _ _ ho))
  · exact find?_append_singleton hx _ hl

theorem foldl_register_length (f : (String × String × Option String) → String)
    (g : (String × String × Option String) → String)
    (h : (String × String × Option String) → Option String) :
    ∀ (items : List (String × String × Option String)) (st : AppState),
      st.user_operations.length ≤ 10 →
      ((items.foldl (fun s it => register_operation s (f it) (g it) (h it))
        st).user_operations).length ≤ 10 := by
  intro items
  induction items with
  | nil => intro st hst; exact hst
  | cons it rest ih =>
    intro st hst
    rw [List.foldl_cons]
    exact ih _ (register_operation_length st (f it) (g it) (h it) hst)

/-! ### Interleaving lemmas for the submission critical sections -/

theorem shuffle_left_nil {α : Type} {xs ys zs : List α} (h : Shuffle xs ys zs)
    (hx : xs = []) : zs = ys := by
  induction h with
  | nil => rfl
  | left h ih => exact absurd hx (by simp)
  | right h ih => rw [ih hx]

theorem shuffle_right_nil {α : Type} {xs ys zs : List α} (h : Shuffle xs ys zs)
    (hy : ys = []) : zs = xs := by
  induction h with
  | nil => rfl
  | left h ih => rw [ih hy]
  | right h ih => exact absurd hy (by simp)

theorem shuffle_append {α : Type} : ∀ xs ys : List α, Shuffle xs ys (xs ++ ys) := by
  intro xs
  induction xs with
  | nil =>
    intro ys
    induction ys with
    | nil => exact Shuffle.nil
    | cons y ys ih => exact Shuffle.right ih
  | cons x xs ih =>
    intro ys
    exact Shuffle.left (ih ys)

/-- Two three-event critical sections on the shared `api_client` mutex admit
only the two sequential interleavings: whichever task acquires first
completes its submission and releases before the other acquires. -/
theorem exclusive_shuffle_sequential (v₁ p₁ v₂ p₂ : String) :
    ∀ zs, Shuffle
        [(0, Ev.acquire .api_client), (0, Ev.submitReq v₁ p₁),
          (0, Ev.release .api_client)]
        [(1, Ev.acquire .api_client), (1, Ev.submitReq v₂ p₂),
          (1, Ev.release .api_client)]
        zs →
      exclusiveOk zs = true →
      zs = [(0, Ev.acquire .api_client), (0, Ev.submitReq v₁ p₁),
          (0, Ev.release .api_client)] ++
        [(1, Ev.acquire .api_client), (1, Ev.submitReq v₂ p₂),
          (1, Ev.release .api_client)] ∨
      zs = [(1, Ev.acquire .api_client), (1, Ev.submitReq v₂ p₂),
          (1, Ev.release .api_client)] ++
        [(0, Ev.acquire .api_client), (0, Ev.submitReq v₁ p₁),
          (0, Ev.release .api_client)] := by
  intro zs h hex
  unfold exclusiveOk at hex
  cases h with
  | left h1 =>
    cases h1 with
    | left h2 =>
      cases h2 with
      | left h3 =>
        left
        rw [shuffle_left_nil h3 rfl]
        rfl
      | right h3 =>
        exfalso
        simp [exclusiveOkAux] at hex
    | right h2 =>
      exfalso
      simp [exclusiveOkAux] at hex
  | right h1 =>
    cases h1 with
    | left h2 =>
      exfalso
      simp [exclusiveOkAux] at hex
    | right h2 =>
      cases h2 with
      | left h3 =>
        exfalso
        simp [exclusiveOkAux] at hex
      | right h3 =>
        right
        rw [shuffle_right_nil h3 rfl]
        rfl

/-! ## Claim theorems -/

/-- C1, counterexample to the claim as stated. The MutationSerializer of the
spec is `operation_lock` in src/lxc.rs (the single advisory `Mutex<()>`
wrapped around the lifecycle mutations). The non-blocking submit path
`LxcClient::start_container_async` (src/lxc.rs lines 349-355) issues its
mutation request without ever acquiring it: the trace contains a mutation
request, yet the request is not issued under `operation_lock`. -/
theorem C1_async_skips_serializer_counterexample :
    hasSubmit (asyncSubmitEvents .start "web1") = true ∧
    submitsGuardedBy LockId.operation_lock (asyncSubmitEvents .start "web1") = false := by
  decide

/-- C1 (amended): the non-blocking submit paths never acquire the
MutationSerializer (`operation_lock`); only the blocking wrappers do. Each
non-blocking submission is nevertheless issued while holding the
`api_client` mutex, which is common to all submissions, so for two
concurrently-issued submits every mutex-respecting interleaving is
sequential: one completes its submission (through release) before the other
begins (acquires). -/
theorem C1_submissions_serialized_by_api_mutex :
    (∀ (k : ActionKind) (n : String),
      submitsGuardedBy LockId.operation_lock (asyncSubmitEvents k n) = false) ∧
    (∀ (k : ActionKind) (n : String),
      submitsGuardedBy LockId.api_client (asyncSubmitEvents k n) = true) ∧
    (∀ (n : String) (stR : Except String ContState) (sub w : Except String Unit),
      submitsGuardedBy LockId.operation_lock (start_container n stR sub w).2 = true ∧
      submitsGuardedBy LockId.operation_lock (stop_container n stR sub w).2 = true) ∧
    (∀ (k₁ k₂ : ActionKind) (n₁ n₂ : String) (zs : List (Nat × Ev)),
      Shuffle (tagged 0 (asyncSubmitEvents k₁ n₁))
        (tagged 1 (asyncSubmitEvents k₂ n₂)) zs →
      exclusiveOk zs = true →
      zs = tagged 0 (asyncSubmitEvents k₁ n₁) ++ tagged 1 (asyncSubmitEvents k₂ n₂) ∨
      zs = tagged 1 (asyncSubmitEvents k₂ n₂) ++ tagged 0 (asyncSubmitEvents k₁ n₁)) := by
  refine ⟨?_, ?_, ?_, ?_⟩
  · intro k n
    cases k <;> rfl
  · intro k n
    cases k <;> rfl
  · intro n stR sub w
    constructor
    · cases stR with
      | error e => rfl
      | ok s2 =>
        by_cases h : s2.status = "Running"
        · simp [start_container, h, submitsGuardedBy, submitsGuardedByAux]
        · cases sub with
          | error e2 =>
            simp [start_container, h, submitsGuardedBy, submitsGuardedByAux]
          | ok u =>
            simp [start_container, h, submitsGuardedBy, submitsGuardedByAux]
    · cases stR with
      | error e => rfl
      | ok s2 =>
        by_cases h : s2.status = "Stopped"
        · simp [stop_container, h, submitsGuardedBy, submitsGuardedByAux]
        · cases sub with
          | error e2 =>
            simp [stop_container, h, submitsGuardedBy, submitsGuardedByAux]
          | ok u =>
            simp [stop_container, h, submitsGuardedBy, submitsGuardedByAux]
  · intro k₁ k₂ n₁ n₂ zs hsh hex
    cases k₁ <;> cases k₂ <;>
      exact exclusive_shuffle_sequential _ _ _ _ zs hsh hex

/-- C1, witness: concrete instances of the amended theorem at the start and
stop submissions for containers web1 and db1, with the sequential
interleaving as the concrete admissible shuffle. -/
theorem C1_submissions_serialized_witness :
    submitsGuardedBy LockId.operation_lock (asyncSubmitEvents .start "web1") = false ∧
    submitsGuardedBy LockId.api_client (asyncSubmitEvents .start "web1") = true ∧
    (tagged 0 (asyncSubmitEvents .start "web1") ++ tagged 1 (asyncSubmitEvents .stop "db1") =
        tagged 0 (asyncSubmitEvents .start "web1") ++ tagged 1 (asyncSubmitEvents .stop "db1") ∨
      tagged 0 (asyncSubmitEvents .start "web1") ++ tagged 1 (asyncSubmitEvents .stop "db1") =
        tagged 1 (asyncSubmitEvents .stop "db1") ++ tagged 0 (asyncSubmitEvents .start "web1")) :=
  ⟨C1_submissions_serialized_by_api_mutex.1 .start "web1",
   C1_submissions_serialized_by_api_mutex.2.1 .start "web1",
   C1_submissions_serialized_by_api_mutex.2.2.2 .start .stop "web1" "db1" _
     (shuffle_append _ _) (by decide)⟩

/-- C2, counterexample to the claim as stated. In the reachable state with
the tracked operation u1, `App::cancel_operation` leaves the
TrackedRemoteOperation in the map (it only rewrites the record), and a
subsequent due tick still collects u1 into its poll set. -/
theorem C2_cancel_keeps_tracker_counterexample :
    (cancel_operation liveState "u1" 6).lxd_operations = liveState.lxd_operations ∧
    lookupA "u1" (cancel_operation liveState "u1" 6).lxd_operations = some liveTracker ∧
    (operations_to_check 1000
      (cancel_operation liveState "u1" 6).lxd_operations).map Prod.fst = ["u1"] := by
  refine ⟨?_, ?_, ?_⟩ <;> decide

/-- C2 (amended): `cancel` marks the OperationRecord Cancelled and sets
completed_at, but does not remove the TrackedRemoteOperation: the tracker
map is left exactly as it was, so later due ticks still poll the
identifier. -/
theorem C2_cancel_marks_record_keeps_tracker (st : AppState) (id : String)
    (now : Nat) (r : UserOperation) (h : recOf st id = some r) :
    recOf (cancel_operation st id now) id =
      some { r with status := .Cancelled, completed_at := some now } ∧
    (cancel_operation st id now).lxd_operations = st.lxd_operations :=
  ⟨recOf_cancel_self st now h, cancel_operation_lxd st id now⟩

/-- C2, witness: the amended theorem at the reachable state `liveState`. -/
theorem C2_cancel_witness :
    recOf (cancel_operation liveState "u1" 6) "u1" =
      some { liveRecord with status := .Cancelled, completed_at := some 6 } ∧
    (cancel_operation liveState "u1" 6).lxd_operations = liveState.lxd_operations :=
  C2_cancel_marks_record_keeps_tracker liveState "u1" 6 liveRecord (by decide)

/-- C3, counterexample to the claim as stated: a remote job status code of
401 marks the record `Failed` with the daemon error message, not
`Cancelled` — the 400 and 401 codes share one arm in
`App::poll_lxd_operations` (src/app.rs line 962), which calls
`complete_operation(.., false, ..)`. -/
theorem C3_401_not_cancelled_counterexample :
    (recOf (poll_lxd_operations (pollConst 401 "boom") 1000 liveState) "u1").map
      (fun r => r.status) = some (.Failed "boom") ∧
    ¬ (recOf (poll_lxd_operations (pollConst 401 "boom") 1000 liveState) "u1").map
      (fun r => r.status) = some .Cancelled := by
  constructor <;> decide

/-- C3 (amended): for every tracked operation polled by a tick, a remote
status code of 400 or of 401 yields `Failed` with the daemon's error
message preserved verbatim (401 is not distinguished as Cancelled); in both
cases completed_at is set and the TrackedRemoteOperation is removed. -/
theorem C3_terminal_codes_mark_failed (poll : String → Except String LxdOp)
    (now : Nat) (st : AppState) (id : String) (tr : LxdOperationTracker)
    (j : LxdOp) (r : UserOperation)
    (hnd : (st.lxd_operations.map Prod.fst).Nodup)
    (hlk : lookupA id st.lxd_operations = some tr)
    (hdue : isDue now tr = true)
    (hpoll : poll tr.lxd_operation_path = .ok j)
    (hcode : j.status_code = 400 ∨ j.status_code = 401)
    (hrec : recOf st id = some r) :
    recOf (poll_lxd_operations poll now st) id =
      some { r with status := .Failed j.err, completed_at := some now } ∧
    lookupA id (poll_lxd_operations poll now st).lxd_operations = none := by
  obtain ⟨h1, h2, _⟩ := tick_effect_ok poll now st id tr j hnd hlk hdue hpoll
  constructor
  · rw [h1, hrec]
    rcases hcode with hc | hc <;> simp [recordAfter, hc]
  · rw [h2, if_pos ?_]
    rcases hcode with hc | hc <;> simp [isTerminalCode, hc]

/-- C3, witness: the amended theorem at the reachable state `liveState`
with a 401 poll answer carrying the daemon message boom. -/
theorem C3_terminal_codes_witness :
    recOf (poll_lxd_operations (pollConst 401 "boom") 1000 liveState) "u1" =
      some { liveRecord with status := .Failed "boom", completed_at := some 1000 } ∧
    lookupA "u1"
      (poll_lxd_operations (pollConst 401 "boom") 1000 liveState).lxd_operations =
      none :=
  C3_terminal_codes_mark_failed (pollConst 401 "boom") 1000 liveState "u1"
    liveTracker { status_code := 401, err := "boom", progress := none } liveRecord
    (by decide) (by decide) (by decide) rfl (Or.inr rfl) (by decide)

theorem recOf_set_modal (st : AppState) (m : Option StatusModalType) (id : String) :
    recOf { st with modal := m } id = recOf st id := rfl

/-- C4, counterexample to the claim as stated: in the reachable state
`evictedState` (nine registrations, then a confirmed start of web1 creating
record and tracker u1, then ten further registrations) the tracker u1 is
still in the map while its OperationRecord has been evicted from the capped
history — the correlation invariant is broken by registration past the
cap. -/
theorem C4_eviction_strands_tracker_counterexample :
    lookupA "u1" evictedState.lxd_operations = some liveTracker ∧
    recOf evictedState "u1" = none := by
  constructor <;> decide

/-- C4 (amended): the record/tracker correlation survives registration
except across eviction: if every tracker id has a live record and either
the history is below the 10-record cap or the oldest (first) record is not
the record of any tracker, then after registering a new record every
tracker id still has a live record. Registering at the cap evicts the
oldest record even if a tracker still references it (see the
counterexample). -/
theorem C4_correlation_preserved_without_eviction (st : AppState)
    (newId d : String) (c : Option String)
    (hinv : ∀ p ∈ st.lxd_operations, (recOf st p.1).isSome = true)
    (hsafe : st.user_operations.length < 10 ∨
      ∀ hd, st.user_operations.head? = some hd →
        ∀ p ∈ st.lxd_operations, p.1 ≠ hd.id) :
    ∀ p ∈ (register_operation st newId d c).lxd_operations,
      (recOf (register_operation st newId d c) p.1).isSome = true := by
  intro p hp
  have hp2 : p ∈ st.lxd_operations := by
    rwa [register_operation_lxd] at hp
  have hr := hinv p hp2
  obtain ⟨r, hrr⟩ := Option.isSome_iff_exists.mp hr
  unfold recOf at hrr ⊢
  simp only [register_operation]
  split
  · next hlen =>
    have hlen2 : 10 ≤ st.user_operations.length := by
      simp only [List.length_append, List.length_singleton] at hlen
      omega
    cases hl : st.user_operations with
    | nil =>
      rw [hl] at hlen2
      simp at hlen2
    | cons hd tl =>
      have hne : ¬ hd.id = p.1 := by
        rcases hsafe with hlt | hhd
        · exact absurd hlt (by omega)
        · intro hc
          exact (hhd hd (by rw [hl]; rfl) p hp2) hc.symm
      rw [hl] at hrr
      rw [List.find?_cons_of_neg _ (by simp [hne])] at hrr
      show (List.find? (fun o => o.id == p.1) (tl ++ [newUserOp newId d c])).isSome = true
      rw [find?_append_left tl _ hrr]
      rfl
  · next hlen =>
    rw [find?_append_left _ _ hrr]
    rfl

/-- C4, witness: the amended theorem at the reachable state `liveState`
(one record, one tracker, history far below the cap), specialised to the
tracker u1. -/
theorem C4_correlation_witness :
    (recOf (register_operation liveState "v1" "op v1" none) "u1").isSome = true :=
  C4_correlation_preserved_without_eviction liveState "v1" "op v1" none
    (by decide) (Or.inl (by decide)) ("u1", liveTracker) (by decide)

/-- C5: a code-200 poll marks the record Success with completed_at set,
removes the TrackedRemoteOperation, and requests a container-list refresh;
and a tick in which no due tracker polls 200 (in particular a code-400
outcome) requests no refresh. -/
theorem C5_success_refreshes_failure_does_not
    (poll : String → Except String LxdOp) (now : Nat) (st : AppState)
    (id : String) (tr : LxdOperationTracker) (j : LxdOp) (r : UserOperation)
    (hnd : (st.lxd_operations.map Prod.fst).Nodup)
    (hlk : lookupA id st.lxd_operations = some tr)
    (hdue : isDue now tr = true)
    (hpoll : poll tr.lxd_operation_path = .ok j)
    (hrec : recOf st id = some r) :
    (j.status_code = 200 →
      recOf (poll_lxd_operations poll now st) id =
        some { r with status := .Success, completed_at := some now } ∧
      lookupA id (poll_lxd_operations poll now st).lxd_operations = none ∧
      st.refresh_requests < (poll_lxd_operations poll now st).refresh_requests) ∧
    ((∀ it ∈ operations_to_check now st.lxd_operations,
        ∀ j2, poll it.2 = .ok j2 → ¬ j2.status_code = 200) →
      (poll_lxd_operations poll now st).refresh_requests = st.refresh_requests) := by
  constructor
  · intro h200
    obtain ⟨h1, h2, h3⟩ := tick_effect_ok poll now st id tr j hnd hlk hdue hpoll
    refine ⟨?_, ?_, h3 h200⟩
    · rw [h1, hrec]
      simp [recordAfter, h200]
    · rw [h2, if_pos (by simp [isTerminalCode, h200])]
  · intro hall
    exact tick_no_refresh poll now st hall

/-- C5, witness: the claim theorem at `liveState`, once with a daemon
answering 200 (success path, refresh requested) and once answering 400
(failure path, no refresh). -/
theorem C5_success_refresh_witness :
    (recOf (poll_lxd_operations (pollConst 200 "") 1000 liveState) "u1" =
        some { liveRecord with status := .Success, completed_at := some 1000 } ∧
      lookupA "u1"
        (poll_lxd_operations (pollConst 200 "") 1000 liveState).lxd_operations = none ∧
      liveState.refresh_requests <
        (poll_lxd_operations (pollConst 200 "") 1000 liveState).refresh_requests) ∧
    (poll_lxd_operations (pollConst 400 "nope") 1000 liveState).refresh_requests =
      liveState.refresh_requests :=
  ⟨(C5_success_refreshes_failure_does_not (pollConst 200 "") 1000 liveState "u1"
      liveTracker { status_code := 200, err := "", progress := none } liveRecord
      (by decide) (by decide) (by decide) rfl (by decide)).1 rfl,
   (C5_success_refreshes_failure_does_not (pollConst 400 "nope") 1000 liveState "u1"
      liveTracker { status_code := 400, err := "nope", progress := none } liveRecord
      (by decide) (by decide) (by decide) rfl (by decide)).2
     (by
       intro it hit j2 hj2
       simp only [pollConst] at hj2
       injection hj2 with hj3
       rw [← hj3]
       decide)⟩

theorem lxd_set_modal (st : AppState) (m : Option StatusModalType) :
    ({ st with modal := m } : AppState).lxd_operations = st.lxd_operations := rfl

theorem lxd_set_modal_pending (st : AppState) (m : Option StatusModalType)
    (q : Option ConfirmAction) :
    ({ st with modal := m, pending_action := q } : AppState).lxd_operations =
      st.lxd_operations := rfl

theorem recOf_register_fresh_framed (st2 : AppState) (newId d : String)
    (c : Option String) (m : Option StatusModalType) (q : Option ConfirmAction)
    (hfresh : ∀ o ∈ st2.user_operations, o.id ≠ newId) :
    recOf ({ register_operation st2 newId d c with modal := m, pending_action := q } :
      AppState) newId = some (newUserOp newId d c) :=
  recOf_register_fresh st2 newId d c hfresh

/-- C6: a transport/protocol error while polling is never surfaced — the
record is untouched (a Running record stays Running) and the tracker is
kept, with only its last_checked stamp advanced, for retry on the next
tick; by contrast an error from the initial submit call is terminal — the
record goes straight to Failed with the error message (started and
completed in the same step) and no TrackedRemoteOperation is created. -/
theorem C6_poll_errors_transient_submit_errors_terminal
    (poll : String → Except String LxdOp) (now : Nat) (st : AppState)
    (id : String) (tr : LxdOperationTracker) (e : String) (r : UserOperation)
    (hnd : (st.lxd_operations.map Prod.fst).Nodup)
    (hlk : lookupA id st.lxd_operations = some tr)
    (hdue : isDue now tr = true)
    (hpoll : poll tr.lxd_operation_path = .error e)
    (hrec : recOf st id = some r)
    (st2 : AppState) (action : ConfirmAction) (newId : String) (now2 : Nat)
    (e2 : String)
    (hfresh : ∀ o ∈ st2.user_operations, o.id ≠ newId)
    (hmap : newId ∉ st2.lxd_operations.map Prod.fst) :
    (recOf (poll_lxd_operations poll now st) id = some r ∧
      lookupA id (poll_lxd_operations poll now st).lxd_operations =
        some { tr with last_checked := now }) ∧
    (recOf (handle_confirmation_yes st2 action newId now2 (.error e2)) newId =
        some { newUserOp newId (confirmDesc action).1
            (some (confirmDesc action).2.1) with
          status := .Failed e2, started_at := some now2,
          completed_at := some now2 } ∧
      lookupA newId
        (handle_confirmation_yes st2 action newId now2 (.error e2)).lxd_operations =
        none) := by
  constructor
  · obtain ⟨h1, h2⟩ := tick_effect_error poll now st id tr hnd hlk hdue hpoll
    exact ⟨h1.trans hrec, h2⟩
  · have h1 := recOf_start_self _ now2
      (recOf_register_fresh_framed st2 newId ((confirmDesc action).1)
        (some (confirmDesc action).2.1) (some (.Progress newId)) none hfresh)
    constructor
    · simp only [handle_confirmation_yes]
      rw [recOf_set_modal]
      rw [recOf_complete_self _ false (some e2) now2 h1]
      rfl
    · simp only [handle_confirmation_yes]
      rw [lxd_set_modal, complete_operation_lxd, start_operation_lxd,
        lxd_set_modal_pending, register_operation_lxd]
      exact lookupA_not_mem_keys hmap

/-- C6, witness: the claim theorem at `liveState` with an all-failing
daemon for the poll half, and a rejected stop of db1 from the initial state
for the submit half. -/
theorem C6_transient_terminal_witness :
    (recOf (poll_lxd_operations pollErr 1000 liveState) "u1" = some liveRecord ∧
      lookupA "u1" (poll_lxd_operations pollErr 1000 liveState).lxd_operations =
        some { liveTracker with last_checked := 1000 }) ∧
    (recOf (handle_confirmation_yes initialApp (.StopContainer "db1") "u2" 7
          (.error "socket closed")) "u2" =
        some { newUserOp "u2" (confirmDesc (.StopContainer "db1")).1
            (some (confirmDesc (.StopContainer "db1")).2.1) with
          status := .Failed "socket closed", started_at := some 7,
          completed_at := some 7 } ∧
      lookupA "u2"
        (handle_confirmation_yes initialApp (.StopContainer "db1") "u2" 7
          (.error "socket closed")).lxd_operations = none) :=
  C6_poll_errors_transient_submit_errors_terminal pollErr 1000 liveState "u1"
    liveTracker "connection reset by peer" liveRecord
    (by decide) (by decide) (by decide) rfl (by decide)
    initialApp (.StopContainer "db1") "u2" 7 "socket closed"
    (by intro o ho; simp [initialApp] at ho) (by decide)

/-- C7: a poll answer whose status code is in the running range 103..=109,
or any unrecognized code, updates only the tracker's bookkeeping (last
checked time, last-seen status code, progress): the OperationRecord is
untouched (status and timestamps unchanged) and the TrackedRemoteOperation
stays in the map. -/
theorem C7_running_unknown_updates_bookkeeping_only
    (poll : String → Except String LxdOp) (now : Nat) (st : AppState)
    (id : String) (tr : LxdOperationTracker) (j : LxdOp)
    (hnd : (st.lxd_operations.map Prod.fst).Nodup)
    (hlk : lookupA id st.lxd_operations = some tr)
    (hdue : isDue now tr = true)
    (hpoll : poll tr.lxd_operation_path = .ok j)
    (hrun : (103 ≤ j.status_code ∧ j.status_code ≤ 109) ∨
      (¬ j.status_code = 200 ∧ ¬ j.status_code = 400 ∧ ¬ j.status_code = 401)) :
    recOf (poll_lxd_operations poll now st) id = recOf st id ∧
    lookupA id (poll_lxd_operations poll now st).lxd_operations =
      some (trackerAfterPoll j { tr with last_checked := now }) := by
  have hcodes : ¬ j.status_code = 200 ∧ ¬ j.status_code = 400 ∧
      ¬ j.status_code = 401 := by
    rcases hrun with ⟨hlo, hhi⟩ | h
    · refine ⟨?_, ?_, ?_⟩ <;> omega
    · exact h
  obtain ⟨h1, h2, _⟩ := tick_effect_ok poll now st id tr j hnd hlk hdue hpoll
  constructor
  · rw [h1]
    cases hrec : recOf st id with
    | none => rfl
    | some r =>
      simp [recordAfter, hcodes.1, hcodes.2.1, hcodes.2.2]
  · rw [h2, if_neg ?_]
    simp [isTerminalCode, hcodes.1, hcodes.2.1, hcodes.2.2]

/-- C7, witness: the claim theorem at `liveState` with a 104 poll answer
carrying progress metadata 42: the record is untouched and the tracker
keeps the new bookkeeping. -/
theorem C7_running_unknown_witness :
    recOf (poll_lxd_operations (pollConst 104 "") 1000 liveState) "u1" =
      recOf liveState "u1" ∧
    lookupA "u1"
      (poll_lxd_operations (pollConst 104 "") 1000 liveState).lxd_operations =
      some (trackerAfterPoll { status_code := 104, err := "", progress := none }
        { liveTracker with last_checked := 1000 }) :=
  C7_running_unknown_updates_bookkeeping_only (pollConst 104 "") 1000 liveState
    "u1" liveTracker { status_code := 104, err := "", progress := none }
    (by decide) (by decide) (by decide) rfl (Or.inl (by constructor <;> decide))

/-- C8, counterexample to the claim as stated: on an envelope with no
`operation` field and status_code 400 carrying the daemon error string
boom, the async submit path fails with
`ApiError("No operation returned")` — the daemon's error string is not
propagated (and no `ProtocolError` distinction exists on this path). -/
theorem C8_daemon_error_not_propagated_counterexample :
    async_operation_of (.ok rejectedEnvelope) =
      .error (.ApiError "No operation returned") ∧
    ¬ async_operation_of (.ok rejectedEnvelope) = .error (.ApiError "boom") := by
  constructor
  · rfl
  · intro h
    rw [show async_operation_of (.ok rejectedEnvelope) =
      .error (.ApiError "No operation returned") from rfl] at h
    injection h with h2
    injection h2 with h3
    exact absurd h3 (by decide)

/-- C8 (amended): the async-mutation tail checks only the `operation`
field: when present it is returned as the job handle; when absent the call
fails with the fixed message `ApiError("No operation returned")` regardless
of status_code, error string or metadata (no status_code >= 400 check and no
ProtocolError arises on this path); transport/decode errors propagate. The
status-code/error-string handling the claim describes exists only on the
synchronous `request` path. -/
theorem C8_async_checks_operation_only :
    (∀ (r : LxdResponseRaw) (p : String), r.operation = some p →
      async_operation_of (.ok r) = .ok p) ∧
    (∀ r : LxdResponseRaw, r.operation = none →
      async_operation_of (.ok r) = .error (.ApiError "No operation returned")) ∧
    (∀ (r : LxdResponseRaw) (sc : Int) (e m : Option String),
      async_operation_of
          (.ok { r with status_code := sc, error := e, metadata := m }) =
        async_operation_of (.ok r)) ∧
    (∀ e : LxdApiError, async_operation_of (.error e) = .error e) ∧
    (∀ r : LxdResponseRaw, r.status_code ≥ 400 →
      request_decoded (.ok r) = .error (.ApiError (r.error.getD "Unknown error"))) := by
  refine ⟨?_, ?_, ?_, ?_, ?_⟩
  · intro r p h
    simp [async_operation_of, request_raw, h]
  · intro r h
    simp [async_operation_of, request_raw, h]
  · intro r sc e m
    rfl
  · intro e
    rfl
  · intro r h
    simp [request_decoded, if_pos h]

/-- C8, witness: the amended theorem at the accepted and rejected concrete
envelopes. -/
theorem C8_async_checks_operation_witness :
    async_operation_of (.ok acceptedEnvelope) = .ok "/1.0/operations/abc" ∧
    async_operation_of (.ok rejectedEnvelope) =
      .error (.ApiError "No operation returned") ∧
    request_decoded (.ok rejectedEnvelope) = .error (.ApiError "boom") :=
  ⟨C8_async_checks_operation_only.1 acceptedEnvelope "/1.0/operations/abc" rfl,
   C8_async_checks_operation_only.2.1 rejectedEnvelope rfl,
   C8_async_checks_operation_only.2.2.2.2 rejectedEnvelope (by decide)⟩

/-- C9: the OperationLog never exceeds 10 records — any sequence of
registrations starting from the initial state leaves at most 10 — and
registering at the cap evicts exactly the oldest record, retaining all
newer records in order followed by the new one. -/
theorem C9_history_capped_oldest_evicted :
    (∀ items : List (String × String × Option String),
      ((items.foldl (fun s it => register_operation s it.1 it.2.1 it.2.2)
        initialApp).user_operations).length ≤ 10) ∧
    (∀ (st : AppState) (newId d : String) (c : Option String),
      st.user_operations.length = 10 →
      (register_operation st newId d c).user_operations =
        st.user_operations.tail ++ [newUserOp newId d c]) := by
  constructor
  · intro items
    exact foldl_register_length (fun it => it.1) (fun it => it.2.1)
      (fun it => it.2.2) items initialApp (by decide)
  · intro st newId d c h
    exact register_operation_at_cap st newId d c h

/-- C9, witness: registering an eleventh operation in the 10-record state
`evictedState` drops exactly its oldest record. -/
theorem C9_history_capped_witness :
    (register_operation evictedState "w1" "op w1" none).user_operations =
      evictedState.user_operations.tail ++ [newUserOp "w1" "op w1" none] :=
  C9_history_capped_oldest_evicted.2 evictedState "w1" "op w1" none (by decide)

/-- C10: the blocking start and stop are idempotent at the interface: if
the queried state already reads Running, `LxcClient::start_container`
returns Ok without issuing any mutation request, and if it already reads
Stopped, `LxcClient::stop_container` returns Ok without issuing any
mutation request. -/
theorem C10_blocking_start_stop_idempotent :
    (∀ (name : String) (s : ContState) (sub w : Except String Unit),
      s.status = "Running" →
      (start_container name (.ok s) sub w).1 = .ok () ∧
      hasSubmit (start_container name (.ok s) sub w).2 = false) ∧
    (∀ (name : String) (s : ContState) (sub w : Except String Unit),
      s.status = "Stopped" →
      (stop_container name (.ok s) sub w).1 = .ok () ∧
      hasSubmit (stop_container name (.ok s) sub w).2 = false) := by
  constructor
  · intro name s sub w h
    constructor <;> simp [start_container, h, hasSubmit]
  · intro name s sub w h
    constructor <;> simp [stop_container, h, hasSubmit]

/-- C10, witness: starting web1 while its state reads Running returns Ok
with no mutation issued; stopping db1 while Stopped likewise. -/
theorem C10_blocking_idempotent_witness :
    ((start_container "web1" (.ok { status := "Running", status_code := 103 })
        (.ok ()) (.ok ())).1 = .ok () ∧
      hasSubmit (start_container "web1"
        (.ok { status := "Running", status_code := 103 }) (.ok ()) (.ok ())).2 =
        false) ∧
    ((stop_container "db1" (.ok { status := "Stopped", status_code := 102 })
        (.ok ()) (.ok ())).1 = .ok () ∧
      hasSubmit (stop_container "db1"
        (.ok { status := "Stopped", status_code := 102 }) (.ok ()) (.ok ())).2 =
        false) :=
  ⟨C10_blocking_start_stop_idempotent.1 "web1"
      { status := "Running", status_code := 103 } (.ok ()) (.ok ()) rfl,
   C10_blocking_start_stop_idempotent.2 "db1"
      { status := "Stopped", status_code := 102 } (.ok ()) (.ok ()) rfl⟩

end LxTui
